import Mathlib

/-!
Verification of the amenity-enrichment engine of the woladen.de data
pipeline (scripts/build_data.py), as a shallow embedding in Lean 4.

Python floats are modelled as exact rationals where the code only does
field arithmetic and comparisons, and as real numbers where the code uses
trigonometry (the haversine distance and the grid built on top of it).
Python dicts are modelled as insertion-ordered association lists with
lookup-with-default, matching dict.get semantics; Python sets of tuples
are modelled as finite sets.
-/

namespace Woladen

/-! ### Tags and the amenity rule table (build_data.py lines 80-117) -/

/-- A tag mapping of an OSM object, modelling the Python dict of
string keys to string values. -/
abbrev Tags := List (String × String)

/-- Models `d.get(k)` on a Python dict represented as an association
list: the first binding of the key, if any. -/
def dictGet? {α β : Type} [DecidableEq α] (d : List (α × β)) (k : α) :
    Option β :=
  match d with
  | [] => none
  | kv :: rest => if kv.1 = k then some kv.2 else dictGet? rest k

/-- Models `tags.get(key)`: defined-miss lookup in a tag mapping. -/
def tagsGet (tags : Tags) (key : String) : Option String :=
  dictGet? tags key

/-- One amenity category with its tag selectors, from the dataclass
AmenityRule in build_data.py. -/
structure AmenityRule where
  key : String
  selectors : List (String × String)
deriving DecidableEq

/-- The fixed rule table AMENITY_RULES from build_data.py. -/
def AMENITY_RULES : List AmenityRule := [
  ⟨"restaurant", [("amenity", "restaurant")]⟩,
  ⟨"cafe", [("amenity", "cafe")]⟩,
  ⟨"fast_food", [("amenity", "fast_food")]⟩,
  ⟨"toilets", [("amenity", "toilets")]⟩,
  ⟨"supermarket", [("shop", "supermarket")]⟩,
  ⟨"bakery", [("shop", "bakery")]⟩,
  ⟨"convenience", [("shop", "convenience")]⟩,
  ⟨"pharmacy", [("amenity", "pharmacy"), ("shop", "chemist")]⟩,
  ⟨"hotel", [("tourism", "hotel")]⟩,
  ⟨"museum", [("tourism", "museum")]⟩,
  ⟨"playground", [("leisure", "playground")]⟩,
  ⟨"park", [("leisure", "park")]⟩,
  ⟨"ice_cream", [("amenity", "ice_cream")]⟩]

/-- AMENITY_EXAMPLES_PER_STATION from build_data.py. -/
def AMENITY_EXAMPLES_PER_STATION : Nat := 12

/-- classify_tags from build_data.py: for each rule, append the rule key
once as soon as some selector pair matches the tags (the Python loop
breaks after the first matching selector of a rule). -/
def classify_tags (tags : Tags) : List String :=
  AMENITY_RULES.filterMap fun rule =>
    if rule.selectors.any (fun sel => tagsGet tags sel.1 == some sel.2) then
      some rule.key
    else
      none

/-- The per-category output column names, `amenity_{rule.key}` for each
rule, as built in enrich_with_amenities_overpass and
enrich_with_amenities_osm_pbf. -/
def amenity_columns : List String :=
  AMENITY_RULES.map fun rule => "amenity_" ++ rule.key

/-! ### Count dictionaries -/

/-- Models `int(counts.get(col, 0))`: lookup with default 0 in a counts
dict. -/
def countsGet (counts : List (String × Int)) (k : String) : Int :=
  (dictGet? counts k).getD 0

/-- Models a Python dict store `d[k] = v`: overwrite the binding in place
if the key is present, else append it (insertion order preserved). -/
def dictSet {α β : Type} [DecidableEq α] (d : List (α × β)) (k : α) (v : β) :
    List (α × β) :=
  if (dictGet? d k).isSome then
    d.map fun kv => if kv.1 = k then (k, v) else kv
  else
    d ++ [(k, v)]

/-- Models `counts[k] += 1` on a counts dict whose key is present
(as guaranteed by the zero-initialisation in the source). -/
def dictBump (d : List (String × Int)) (k : String) : List (String × Int) :=
  dictSet d k (countsGet d k + 1)

/-- The zero-initialised counts dict `{col: 0 for col in amenity_columns}`
(equivalently the init dict of lookup_amenities keyed by
`amenity_{rule.key}`). -/
def zeroCountsDict : List (String × Int) :=
  amenity_columns.map fun col => (col, 0)

/-! ### Overpass element stream and deduplicated counting
(lookup_amenities, build_data.py lines 1052-1127) -/

/-- One element of the Overpass JSON reply, restricted to the fields the
counting logic of lookup_amenities reads. `eid = none` models a missing
or non-integer id field; `tags = none` models a missing or non-object
tags field. -/
structure OverpassElement where
  etype : String
  eid : Option Int
  tags : Option Tags

/-- The per-element validity test of lookup_amenities: the type must be
node, way or relation, the id an integer, the tags an object. -/
def overpassElementValid (e : OverpassElement) : Bool :=
  (e.etype == "node" || e.etype == "way" || e.etype == "relation") &&
    e.eid.isSome && e.tags.isSome

/-- The mutable state of the counting loop of lookup_amenities: the
`seen` set of (type, id, category) markers and the counts dict. -/
structure LookupState where
  seen : Finset (String × Int × String)
  counts : List (String × Int)

/-- The body of `for cat in categories` in lookup_amenities: skip the
category if its (type, id, category) marker was already seen, else
record the marker and increment that category's count. -/
def processCategory (etype : String) (eid : Int) (st : LookupState)
    (cat : String) : LookupState :=
  if (etype, eid, cat) ∈ st.seen then st
  else
    { seen := insert (etype, eid, cat) st.seen
      counts := dictBump st.counts ("amenity_" ++ cat) }

/-- The body of `for element in payload.get("elements", [])` in
lookup_amenities, restricted to the counting effect: invalid elements are
skipped, valid ones fold processCategory over their classified
categories. -/
def processElement (st : LookupState) (e : OverpassElement) : LookupState :=
  match e.eid, e.tags with
  | some eid, some tags =>
    if e.etype == "node" || e.etype == "way" || e.etype == "relation" then
      (classify_tags tags).foldl (processCategory e.etype eid) st
    else st
  | _, _ => st

/-- The counts dict produced by lookup_amenities for a given element
list: zero-initialised per configured category, then folded over the
element stream with per-(type, id, category) deduplication. -/
def lookup_amenities_counts (elements : List OverpassElement) :
    List (String × Int) :=
  (elements.foldl processElement ⟨∅, zeroCountsDict⟩).counts

/-- The set of (type, id, category) triples that a single element
contributes, as a finite set (so repeated selectors of one category
collapse). -/
def elementTriples (e : OverpassElement) : Finset (String × Int × String) :=
  match e.eid, e.tags with
  | some eid, some tags =>
    if e.etype == "node" || e.etype == "way" || e.etype == "relation" then
      ((classify_tags tags).map fun cat => (e.etype, eid, cat)).toFinset
    else ∅
  | _, _ => ∅

/-- All distinct (type, id, category) triples of an element list; the
intended counting key of the remote backend. -/
def matchedTriples (elements : List OverpassElement) :
    Finset (String × Int × String) :=
  elements.foldl (fun s e => s ∪ elementTriples e) ∅

/-! ### Amenity examples and their ranking
(build_amenity_example and limit_amenity_examples, lines 706-741) -/

/-- An amenity example dict as produced by build_amenity_example.
A `none` in distance_m models an absent (or non-numeric) distance_m key;
absent name and opening_hours keys are modelled by the empty string,
matching the defaulted reads `str(item.get("name", ""))` of the sort
key. The optional coordinate carries (lat, lon) when present. -/
structure AmenityExample where
  category : String
  name : String
  opening_hours : String
  distance_m : Option Int
  coord : Option (Rat × Rat)
deriving DecidableEq

/-- The sort key of limit_amenity_examples: distance (with sentinel
10,000,000 when distance_m is absent or not numeric), then category,
then the lower-cased name. -/
def exampleSortKey (item : AmenityExample) : Int × String × String :=
  (match item.distance_m with
   | some distance => distance
   | none => 10000000,
   item.category,
   item.name.toLower)

/-- Lexicographic comparison of two example sort keys, as Python tuple
comparison of (distance_int, category, name.lower()). -/
def exampleLE (a b : AmenityExample) : Bool :=
  decide ((toLex ((exampleSortKey a).1,
            toLex ((exampleSortKey a).2.1, (exampleSortKey a).2.2))) ≤
          (toLex ((exampleSortKey b).1,
            toLex ((exampleSortKey b).2.1, (exampleSortKey b).2.2))))

/-- limit_amenity_examples from build_data.py: stable sort by the
example sort key (Python's sorted is a stable sort, modelled by
List.mergeSort, which is stable), truncated to
AMENITY_EXAMPLES_PER_STATION entries. -/
def limit_amenity_examples (examples : List AmenityExample) :
    List AmenityExample :=
  let ranked := examples.mergeSort exampleLE
  if ranked.length ≤ AMENITY_EXAMPLES_PER_STATION then ranked
  else ranked.take AMENITY_EXAMPLES_PER_STATION

/-! ### HTTP retry policy (request_with_retries, lines 273-298) -/

/-- The observable outcome of one HTTP attempt: a response with a status
code, or a raised requests.RequestException (network error). -/
inductive HttpOutcome where
  | status (code : Nat)
  | exc
deriving DecidableEq

/-- The statuses the retry loop treats as retryable,
`{429, 500, 502, 503, 504}`. -/
def RETRYABLE_STATUSES : List Nat := [429, 500, 502, 503, 504]

/-- The observable trace of request_with_retries: how many attempts were
made, the sleep durations in order, and either the returned status code
or a propagated failure. -/
structure RetryTrace where
  attempts : Nat
  sleeps : List Rat
  outcome : Except Unit Nat

/-- One iteration of the retry loop of request_with_retries, recursing
on the number of remaining loop iterations. The attempt's outcome is
read from the oracle; note that `response.raise_for_status()` raises a
requests.HTTPError, which is itself a requests.RequestException and is
therefore caught by the `except` clause of the same iteration. -/
def retryGo (oracle : Nat → HttpOutcome) (max_attempts : Nat) :
    Nat → Nat → Rat → RetryTrace
  | _, 0, _ => ⟨max_attempts, [], .error ()⟩
  | attempt, rem + 1, delay =>
    match oracle attempt with
    | .status code =>
      if code < 400 then ⟨attempt, [], .ok code⟩
      else if code ∈ RETRYABLE_STATUSES ∧ attempt < max_attempts then
        let t := retryGo oracle max_attempts (attempt + 1) rem (delay * 18 / 10)
        ⟨t.attempts, delay :: t.sleeps, t.outcome⟩
      else
        -- raise_for_status() raises; the exception is caught below in the
        -- same iteration by `except requests.RequestException`.
        if max_attempts ≤ attempt then ⟨attempt, [], .error ()⟩
        else
          let t := retryGo oracle max_attempts (attempt + 1) rem (delay * 18 / 10)
          ⟨t.attempts, delay :: t.sleeps, t.outcome⟩
    | .exc =>
      if max_attempts ≤ attempt then ⟨attempt, [], .error ()⟩
      else
        let t := retryGo oracle max_attempts (attempt + 1) rem (delay * 18 / 10)
        ⟨t.attempts, delay :: t.sleeps, t.outcome⟩

/-- request_with_retries from build_data.py: up to max_attempts (default
4) attempts with initial delay 1.2 seconds and backoff multiplier 1.8.
The attempt outcomes are supplied by an oracle mapping the attempt
number (1-based) to what the network returned. -/
def request_with_retries (oracle : Nat → HttpOutcome)
    (max_attempts : Nat := 4) : RetryTrace :=
  retryGo oracle max_attempts 1 max_attempts (12 / 10)

/-! ### Per-station enrichment rows (the df.at writes of both backends,
lines 1255-1262 and 1435-1441) -/

/-- The enriched row of one station: the per-category count columns, the
amenities_total column, the amenities_source column, and the encoded
amenity_examples column. -/
structure EnrichmentRow where
  counts : List (String × Int)
  total : Int
  source : String
  examples : List AmenityExample
deriving DecidableEq

/-- The per-category column writes of one station:
`df.at[idx, col] = int(counts.get(col, 0))` for every configured
column. -/
def rowCols (counts : List (String × Int)) : List (String × Int) :=
  amenity_columns.map fun col => (col, countsGet counts col)

/-- The amenities_total write of one station:
`int(sum(int(counts.get(col, 0)) for col in amenity_columns))`. -/
def rowTotal (counts : List (String × Int)) : Int :=
  (amenity_columns.map fun col => countsGet counts col).sum

/-- The full set of df writes for one station, shared verbatim by both
backends: zero-filled per-category columns, the independent total sum,
the provenance tag, and the example list. -/
def materializeRow (counts : List (String × Int)) (source : String)
    (examples : List AmenityExample) : EnrichmentRow :=
  { counts := rowCols counts
    total := rowTotal counts
    source := source
    examples := examples }

/-! ### The Overpass amenity cache and the per-station orchestration
(enrich_with_amenities_overpass, lines 1130-1286) -/

/-- One cache entry of the amenity cache. Timestamps are modelled as
integers (seconds since the epoch); `checked_at = none` models an entry
whose checked_at string fails to parse, which the code replaces by
1970-01-01, that is epoch second 0. -/
structure CacheEntryM where
  checked_at : Option Int
  radius_m : Int
  counts : List (String × Int)
  examples : List AmenityExample
deriving DecidableEq

/-- Seconds per day, for `timedelta(days=refresh_days)`. -/
def SECONDS_PER_DAY : Int := 86400

/-- The cache key `f"{lat:.5f},{lon:.5f}"` of a station, modelled as the
pair of its coordinates rounded to 5 decimal places (scaled by 10^5 to
integers). -/
def coordKey (lat lon : Rat) : Int × Int :=
  (round (lat * 100000), round (lon * 100000))

/-- The use_cache decision of enrich_with_amenities_overpass (lines
1199-1213): an absent entry is never used; otherwise force_refresh
forces a miss, and the entry is used exactly when its radius_m equals
the run's radius and its (parsed) checked_at is at least
`now - timedelta(days=refresh_days)`. -/
def cacheDecision (entry? : Option CacheEntryM) (force_refresh : Bool)
    (radius_m now refresh_days : Int) : Bool :=
  match entry? with
  | none => false
  | some entry =>
    if force_refresh then false
    else
      (entry.radius_m == radius_m) &&
        (now - refresh_days * SECONDS_PER_DAY ≤ entry.checked_at.getD 0)

/-- A station as seen by the Overpass backend: its coordinates, as exact
rationals. -/
structure StationQ where
  lat : Rat
  lon : Rat

/-- The outcome of one live lookup_amenities call: the returned counts
dict and ranked examples, or any raised exception. -/
inductive LookupOutcome where
  | success (counts : List (String × Int)) (examples : List AmenityExample)
  | failure

/-- The running statistics and cache state of the Overpass per-station
loop. -/
structure OverpassState where
  entries : List ((Int × Int) × CacheEntryM)
  queries_used : Nat
  cache_hits : Nat
  cache_misses : Nat
  deferred : Nat
  lookup_errors : Nat
deriving DecidableEq

/-- One iteration of the per-station loop of
enrich_with_amenities_overpass (lines 1197-1263): check the cache, else
defer when the query budget is exhausted, else perform the live lookup
(whose outcome, success or exception, is supplied by the oracle
argument), update statistics and the in-memory cache, and materialize
the station's row. -/
def overpassStationStep (radius_m : Int) (query_budget : Nat)
    (refresh_days : Int) (force_refresh : Bool) (now : Int)
    (st : OverpassState) (station : StationQ) (outcome : LookupOutcome) :
    OverpassState × EnrichmentRow :=
  let key := coordKey station.lat station.lon
  let entry? := dictGet? st.entries key
  if cacheDecision entry? force_refresh radius_m now refresh_days then
    match entry? with
    | some entry =>
      ({ st with cache_hits := st.cache_hits + 1 },
        materializeRow entry.counts "cache" entry.examples)
    | none =>
      -- unreachable: cacheDecision is false on an absent entry
      (st, materializeRow zeroCountsDict "" [])
  else if query_budget ≤ st.queries_used then
    ({ st with cache_misses := st.cache_misses + 1
               deferred := st.deferred + 1 },
      materializeRow zeroCountsDict "deferred" [])
  else
    match outcome with
    | .success counts examples =>
      ({ st with queries_used := st.queries_used + 1
                 cache_misses := st.cache_misses + 1
                 entries := dictSet st.entries key
                   ⟨some now, radius_m, counts, examples⟩ },
        materializeRow counts "live" examples)
    | .failure =>
      ({ st with queries_used := st.queries_used + 1
                 cache_misses := st.cache_misses + 1
                 lookup_errors := st.lookup_errors + 1
                 entries := dictSet st.entries key
                   ⟨some now, radius_m, zeroCountsDict, []⟩ },
        materializeRow zeroCountsDict "error" [])

/-! ### Geometry: haversine distance and the two-level grid of the local
backend (lines 852-901, 1040-1049, 1330-1441) -/

open Real in
/-- math.radians: degrees to radians. -/
noncomputable def radians (deg : ℝ) : ℝ :=
  deg * π / 180

/-- EARTH_RADIUS_M from build_data.py. -/
noncomputable def EARTH_RADIUS_M : ℝ := 6371000

open Real in
/-- math.atan2 on real numbers (the code only ever reaches the branch
with a positive second argument). -/
noncomputable def atan2 (y x : ℝ) : ℝ :=
  if 0 < x then arctan (y / x)
  else if x < 0 then
    if 0 ≤ y then arctan (y / x) + π else arctan (y / x) - π
  else
    if 0 < y then π / 2 else if y < 0 then -(π / 2) else 0

open Real in
/-- haversine_distance_m from build_data.py: great-circle distance on a
sphere of radius EARTH_RADIUS_M. -/
noncomputable def haversine_distance_m (lat1 lon1 lat2 lon2 : ℝ) : ℝ :=
  let phi1 := radians lat1
  let phi2 := radians lat2
  let d_phi := radians (lat2 - lat1)
  let d_lambda := radians (lon2 - lon1)
  let a := sin (d_phi / 2) ^ 2 + cos phi1 * cos phi2 * sin (d_lambda / 2) ^ 2
  2 * EARTH_RADIUS_M * atan2 (sqrt a) (sqrt (max 0 (1 - a)))

open Real in
/-- radius_deltas_deg from build_data.py: the latitude and longitude
half-widths, in degrees, of the bounding box the code attaches to a
radius around a station (the longitude width scaled by 1/cos(lat),
clamped at cos = 0.1). -/
noncomputable def radius_deltas_deg (radius_m : Int) (lat_deg : ℝ) : ℝ × ℝ :=
  let lat_delta := (radius_m : ℝ) / 111320
  let cos_lat := max 0.1 (cos (radians lat_deg))
  let lon_delta := (radius_m : ℝ) / (111320 * cos_lat)
  (lat_delta, lon_delta)

/-- cell_key from build_data.py: floor-division grid cell of a
coordinate. -/
noncomputable def cell_key (lat lon lat_step lon_step : ℝ) : Int × Int :=
  (⌊lat / lat_step⌋, ⌊lon / lon_step⌋)

/-- The coarse grid steps fixed in enrich_with_amenities_osm_pbf. -/
noncomputable def COARSE_LAT_STEP : ℝ := 0.02

/-- The coarse longitude grid step fixed in
enrich_with_amenities_osm_pbf. -/
noncomputable def COARSE_LON_STEP : ℝ := 0.03

/-- A station as seen by the local backend: its coordinates as real
numbers. -/
structure GeoStation where
  lat : ℝ
  lon : ℝ

/-- A tagged point-like geometry from the extract, after its location
has been resolved (a node's own coordinate, or a way's centroid). -/
structure RawGeometry where
  lat : ℝ
  lon : ℝ
  tags : Tags

/-- build_coarse_station_cells from build_data.py: the union over all
stations of every coarse cell touched by the station's
radius_deltas_deg bounding box (the Python double range loop over the
floor indices of the box corners). -/
def build_coarse_station_cells (stations : List GeoStation)
    (radius_m : Int) (lat_step lon_step : ℝ) : Set (Int × Int) :=
  { c | ∃ s ∈ stations,
      ⌊(s.lat - (radius_deltas_deg radius_m s.lat).1) / lat_step⌋ ≤ c.1 ∧
      c.1 ≤ ⌊(s.lat + (radius_deltas_deg radius_m s.lat).1) / lat_step⌋ ∧
      ⌊(s.lon - (radius_deltas_deg radius_m s.lat).2) / lon_step⌋ ≤ c.2 ∧
      c.2 ≤ ⌊(s.lon + (radius_deltas_deg radius_m s.lat).2) / lon_step⌋ }

/-- The fine latitude grid step of enrich_with_amenities_osm_pbf:
`max(0.0005, radius_m / 111_320.0)`. -/
noncomputable def fine_lat_step (radius_m : Int) : ℝ :=
  max 0.0005 ((radius_m : ℝ) / 111320)

open Real in
/-- The fine longitude grid step of enrich_with_amenities_osm_pbf,
computed at the most poleward latitude of the region (56.5 degrees). -/
noncomputable def fine_lon_step (radius_m : Int) : ℝ :=
  max 0.0005 ((radius_m : ℝ) / (111320 * max 0.1 (cos (radians 56.5))))

/-- The phase-2 acceptance test of the PBF scan (_append_if_relevant):
the geometry's tags match at least one category and its coarse cell is
among the accepted station cells. -/
def keptGeometry (stations : List GeoStation) (radius_m : Int)
    (g : RawGeometry) : Prop :=
  classify_tags g.tags ≠ [] ∧
    cell_key g.lat g.lon COARSE_LAT_STEP COARSE_LON_STEP ∈
      build_coarse_station_cells stations radius_m COARSE_LAT_STEP COARSE_LON_STEP

/-- The fine-grid neighborhood gather of the per-station query (lines
1400-1412): a coordinate is gathered for a station exactly when its fine
cell lies in the square of cells the code enumerates, that is within
lat_reach and lon_reach cells of the station's fine cell. -/
def fineNeighborhood (radius_m : Int) (s : GeoStation) (lat lon : ℝ) : Prop :=
  let deltas := radius_deltas_deg radius_m s.lat
  let fs := fine_lat_step radius_m
  let fl := fine_lon_step radius_m
  let lat_reach : Int := max 1 (⌈deltas.1 / fs⌉ + 1)
  let lon_reach : Int := max 1 (⌈deltas.2 / fl⌉ + 1)
  |(cell_key lat lon fs fl).1 - (cell_key s.lat s.lon fs fl).1| ≤ lat_reach ∧
    |(cell_key lat lon fs fl).2 - (cell_key s.lat s.lon fs fl).2| ≤ lon_reach

/-- The candidate set of one station: geometries kept by the coarse-cell
acceptance filter of the scan and gathered by the fine-grid neighborhood
of the station. -/
def candidateSet (stations : List GeoStation) (radius_m : Int)
    (s : GeoStation) : Set RawGeometry :=
  { g | keptGeometry stations radius_m g ∧
        fineNeighborhood radius_m s g.lat g.lon }

/-- The geometries that actually reach the counting loop of a station:
candidates that pass the exact haversine filter
`if distance_m > radius_m: continue`. -/
def countedSet (stations : List GeoStation) (radius_m : Int)
    (s : GeoStation) : Set RawGeometry :=
  { g ∈ candidateSet stations radius_m s |
      haversine_distance_m s.lat s.lon g.lat g.lon ≤ (radius_m : ℝ) }

/-! ### The local backend's per-station rows and failure policy
(collect_amenity_points_from_pbf, ensure_osm_pbf_file,
enrich_with_amenities_osm_pbf) -/

/-- An AmenityPoint of the local backend: the retained, tag-classified
projection of a RawGeometry. -/
structure AmenityPoint where
  lat : ℝ
  lon : ℝ
  categories : List String
  name : String
  opening_hours : String

/-- normalize_optional_text from build_data.py, on an optional tag
value. The collapsing of interior whitespace is not modelled (no
verified claim depends on the text content). -/
def normalize_optional_text (value : Option String) : String :=
  (value.getD "").trim

/-- Rounding of a coordinate to 6 decimal places,
`round(float(x), 6)`. -/
noncomputable def roundTo6 (x : ℝ) : Rat :=
  ((round (x * 1000000) : Int) : Rat) / 1000000

/-- build_amenity_example from build_data.py: the presentation dict of
one example; the distance, when known, is clamped at 0 and rounded to an
integer, the coordinate, when known, rounded to 6 decimal places. -/
noncomputable def build_amenity_example (category name opening_hours : String)
    (distance_m : Option ℝ) (coord : Option (ℝ × ℝ)) : AmenityExample :=
  { category := category
    name := name
    opening_hours := opening_hours
    distance_m := distance_m.map fun d => round (max 0 d)
    coord := coord.map fun c => (roundTo6 c.1, roundTo6 c.2) }

open scoped Classical in
/-- The phase-2 result of the PBF scan: every geometry of the extract
that passes the keptGeometry test, projected to an AmenityPoint (in
stream order). -/
noncomputable def keptPoints (stations : List GeoStation) (radius_m : Int)
    (extract : List RawGeometry) : List AmenityPoint :=
  (extract.filter fun g => decide (keptGeometry stations radius_m g)).map
    fun g =>
      { lat := g.lat
        lon := g.lon
        categories := classify_tags g.tags
        name := normalize_optional_text (tagsGet g.tags "name")
        opening_hours := normalize_optional_text (tagsGet g.tags "opening_hours") }

open scoped Classical in
/-- The body of `for point_idx in candidate_indices` of the per-station
query (lines 1416-1433): skip the point when its exact haversine
distance exceeds the radius, else bump each of its categories' counts
and append one example per category. -/
noncomputable def localPointVisit (radius_m : Int) (s : GeoStation)
    (acc : List (String × Int) × List AmenityExample) (p : AmenityPoint) :
    List (String × Int) × List AmenityExample :=
  let distance_m := haversine_distance_m s.lat s.lon p.lat p.lon
  if (radius_m : ℝ) < distance_m then acc
  else
    p.categories.foldl
      (fun acc cat =>
        (dictBump acc.1 ("amenity_" ++ cat),
         acc.2 ++ [build_amenity_example cat p.name p.opening_hours
           (some distance_m) (some (p.lat, p.lon))]))
      acc

open scoped Classical in
/-- The per-station query of the local backend (lines 1400-1441): gather
the fine-grid candidates, count and exemplify the ones within the exact
radius, and materialize the station's row with the fixed osm-pbf
provenance tag. Python iterates candidate_indices as a set, in an
unspecified order; the model iterates in point index order (the counts
are order-independent, and the ranked example list is re-sorted by
limit_amenity_examples). -/
noncomputable def localStationRow (radius_m : Int) (s : GeoStation)
    (points : List AmenityPoint) : EnrichmentRow :=
  let candidates := points.filter fun p =>
    decide (fineNeighborhood radius_m s p.lat p.lon)
  let acc := candidates.foldl (localPointVisit radius_m s) (zeroCountsDict, [])
  materializeRow acc.1 "osm-pbf" (limit_amenity_examples acc.2)

/-- ensure_osm_pbf_file from build_data.py: succeed when the file is
present and non-empty; abort with a fatal configuration error when it is
missing and downloading is not permitted; the download path itself is
modelled as succeeding. -/
def ensure_osm_pbf_file (file_present_nonempty : Bool)
    (download_if_missing : Bool) : Except String Unit :=
  if file_present_nonempty then .ok ()
  else if !download_if_missing then
    .error "Local OSM PBF backend selected but file is missing."
  else .ok ()

/-- enrich_with_amenities_osm_pbf from build_data.py: an empty station
frame returns immediately with an empty result and zeroed statistics
(before any file check); otherwise the extract file is required, the
extract is scanned once into kept points, and every station's row is
answered from the fine grid. -/
noncomputable def enrich_with_amenities_osm_pbf (stations : List GeoStation)
    (radius_m : Int) (file_present_nonempty download_osm_pbf : Bool)
    (extract : List RawGeometry) : Except String (List EnrichmentRow) :=
  if stations.length = 0 then .ok []
  else
    match ensure_osm_pbf_file file_present_nonempty download_osm_pbf with
    | .error msg => .error msg
    | .ok _ =>
      .ok (stations.map fun s =>
        localStationRow radius_m s (keptPoints stations radius_m extract))

/-! ## Theorems -/

/-! ### Dictionary lemmas -/

theorem dictGet?_append {α β : Type} [DecidableEq α]
    (d₁ d₂ : List (α × β)) (k : α) :
    dictGet? (d₁ ++ d₂) k = (dictGet? d₁ k).or (dictGet? d₂ k) := by
  induction d₁ with
  | nil => simp [dictGet?]
  | cons kv d ih =>
    by_cases hk : kv.1 = k <;> simp [dictGet?, hk, ih]

theorem dictGet?_map_update {α β : Type} [DecidableEq α]
    (d : List (α × β)) (k : α) (v : β) (k' : α) :
    dictGet? (d.map fun kv => if kv.1 = k then (k, v) else kv) k' =
      if k' = k then (if (dictGet? d k).isSome then some v else none)
      else dictGet? d k' := by
  induction d with
  | nil => simp [dictGet?]
  | cons kv d ih =>
    obtain ⟨a, b⟩ := kv
    by_cases hak : a = k
    · subst hak
      by_cases hk : k' = a
      · subst hk
        simp [dictGet?]
      · simp [dictGet?, hk, ih, Ne.symm hk]
    · by_cases hk : k' = a
      · subst hk
        simp [dictGet?, hak, Ne.symm hak]
      · simp [dictGet?, hak, hk, ih, Ne.symm hk, Ne.symm hak]

theorem dictGet?_dictSet {α β : Type} [DecidableEq α]
    (d : List (α × β)) (k : α) (v : β) (k' : α) :
    dictGet? (dictSet d k v) k' =
      if k' = k then some v else dictGet? d k' := by
  unfold dictSet
  by_cases hp : (dictGet? d k).isSome
  · simp [hp, dictGet?_map_update]
  · rw [if_neg hp, dictGet?_append]
    by_cases hk : k' = k
    · subst hk
      have hnone : dictGet? d k' = none := by
        cases h : dictGet? d k' with
        | none => rfl
        | some b => rw [h] at hp; simp at hp
      simp [hnone, dictGet?]
    · cases h : dictGet? d k' <;> simp [h, dictGet?, hk, Ne.symm hk]

theorem countsGet_dictBump (d : List (String × Int)) (k k' : String) :
    countsGet (dictBump d k) k' =
      countsGet d k' + if k' = k then 1 else 0 := by
  unfold dictBump countsGet
  rw [dictGet?_dictSet]
  by_cases hk : k' = k <;> simp [hk, countsGet]

theorem countsGet_zeroCountsDict (k : String) :
    countsGet zeroCountsDict k = 0 := by
  unfold zeroCountsDict countsGet
  generalize amenity_columns = cols
  induction cols with
  | nil => simp [dictGet?]
  | cons c cols ih =>
    by_cases hk : c = k
    · simp [dictGet?, hk]
    · simpa [dictGet?, hk] using ih

/-! ### C1: deduplicated counting of the remote lookup -/

theorem processCategory_fold (etype : String) (eid : Int)
    (cats : List String) (st : LookupState)
    (hc : ∀ k, countsGet st.counts k =
      ((st.seen.filter fun t => "amenity_" ++ t.2.2 = k).card : Int)) :
    (cats.foldl (processCategory etype eid) st).seen =
        st.seen ∪ (cats.map fun cat => (etype, eid, cat)).toFinset ∧
      ∀ k, countsGet (cats.foldl (processCategory etype eid) st).counts k =
        (((cats.foldl (processCategory etype eid) st).seen.filter
            fun t => "amenity_" ++ t.2.2 = k).card : Int) := by
  induction cats generalizing st with
  | nil => exact ⟨by simp, hc⟩
  | cons cat cats ih =>
    simp only [List.foldl_cons]
    by_cases hmem : (etype, eid, cat) ∈ st.seen
    · have hstep : processCategory etype eid st cat = st := by
        unfold processCategory
        simp [hmem]
      rw [hstep]
      obtain ⟨hseen, hcnt⟩ := ih st hc
      refine ⟨?_, hcnt⟩
      rw [hseen]
      simp only [List.map_cons, List.toFinset_cons, Finset.union_insert]
      rw [Finset.insert_eq_self.mpr]
      exact Finset.mem_union_left _ hmem
    · have hstep : processCategory etype eid st cat =
          ⟨insert (etype, eid, cat) st.seen,
           dictBump st.counts ("amenity_" ++ cat)⟩ := by
        unfold processCategory
        simp [hmem]
      rw [hstep]
      have hc2 : ∀ k,
          countsGet (dictBump st.counts ("amenity_" ++ cat)) k =
            (((insert (etype, eid, cat) st.seen).filter
                fun t => "amenity_" ++ t.2.2 = k).card : Int) := by
        intro k
        rw [countsGet_dictBump, hc k, Finset.filter_insert]
        by_cases hpred : "amenity_" ++ cat = k
        · rw [if_pos hpred, Finset.card_insert_of_not_mem, if_pos hpred.symm]
          · push_cast
            ring
          · intro hin
            exact hmem (Finset.mem_filter.mp hin).1
        · rw [if_neg hpred, if_neg fun h => hpred h.symm]
          ring
      obtain ⟨hseen, hcnt⟩ := ih ⟨insert (etype, eid, cat) st.seen,
        dictBump st.counts ("amenity_" ++ cat)⟩ hc2
      refine ⟨?_, hcnt⟩
      rw [hseen]
      simp only [List.map_cons, List.toFinset_cons, Finset.union_insert,
        Finset.insert_union]

theorem processElement_step (e : OverpassElement) (st : LookupState)
    (hc : ∀ k, countsGet st.counts k =
      ((st.seen.filter fun t => "amenity_" ++ t.2.2 = k).card : Int)) :
    (processElement st e).seen = st.seen ∪ elementTriples e ∧
      ∀ k, countsGet (processElement st e).counts k =
        (((processElement st e).seen.filter
            fun t => "amenity_" ++ t.2.2 = k).card : Int) := by
  unfold processElement elementTriples
  match hid : e.eid, htags : e.tags with
  | some eid, some tags =>
    by_cases hty : (e.etype == "node" || e.etype == "way" ||
        e.etype == "relation") = true
    · simp only [hty, if_true]
      exact processCategory_fold e.etype eid (classify_tags tags) st hc
    · simp only [Bool.not_eq_true] at hty
      simp [hty, hc]
  | some _, none => simp [hc]
  | none, _ => simp [hc]

theorem foldl_union_from (elements : List OverpassElement)
    (s0 : Finset (String × Int × String)) :
    elements.foldl (fun s e => s ∪ elementTriples e) s0 =
      s0 ∪ elements.foldl (fun s e => s ∪ elementTriples e) ∅ := by
  induction elements generalizing s0 with
  | nil => simp
  | cons e es ih =>
    simp only [List.foldl_cons]
    rw [ih (s0 ∪ elementTriples e), ih (∅ ∪ elementTriples e)]
    simp [Finset.union_assoc]

theorem matchedTriples_cons (e : OverpassElement)
    (es : List OverpassElement) :
    matchedTriples (e :: es) = elementTriples e ∪ matchedTriples es := by
  unfold matchedTriples
  rw [List.foldl_cons, foldl_union_from]
  simp

theorem foldl_processElement_spec (elements : List OverpassElement)
    (st : LookupState)
    (hc : ∀ k, countsGet st.counts k =
      ((st.seen.filter fun t => "amenity_" ++ t.2.2 = k).card : Int)) :
    (elements.foldl processElement st).seen =
        st.seen ∪ matchedTriples elements ∧
      ∀ k, countsGet (elements.foldl processElement st).counts k =
        (((elements.foldl processElement st).seen.filter
            fun t => "amenity_" ++ t.2.2 = k).card : Int) := by
  induction elements generalizing st with
  | nil => exact ⟨by simp [matchedTriples], hc⟩
  | cons e es ih =>
    obtain ⟨hseen1, hcnt1⟩ := processElement_step e st hc
    obtain ⟨hseen2, hcnt2⟩ := ih (processElement st e) hcnt1
    refine ⟨?_, hcnt2⟩
    rw [List.foldl_cons, hseen2, hseen1, matchedTriples_cons,
      Finset.union_assoc]

/-- C1: for every element list processed by the remote backend's
lookup_amenities, the final count of every column equals the number of
distinct (kind, id, category) triples matching that column: a single
geometry (kind, id) contributes at most one increment per category it
matches, however many selectors of that category it satisfies and
however often it occurs in the element list. -/
theorem overpass_counts_dedup_by_triple (elements : List OverpassElement)
    (k : String) :
    countsGet (lookup_amenities_counts elements) k =
      (((matchedTriples elements).filter
          fun t => "amenity_" ++ t.2.2 = k).card : Int) := by
  unfold lookup_amenities_counts
  obtain ⟨hseen, hcnt⟩ := foldl_processElement_spec elements
    ⟨∅, zeroCountsDict⟩ (fun k => by simp [countsGet_zeroCountsDict])
  rw [hcnt k, hseen]
  simp

/-! ### C6 and C10: ranking of the example list -/

theorem exampleLE_trans (a b c : AmenityExample)
    (hab : exampleLE a b) (hbc : exampleLE b c) : exampleLE a c := by
  simp only [exampleLE, decide_eq_true_eq] at hab hbc ⊢
  exact le_trans hab hbc

theorem exampleLE_total (a b : AmenityExample) :
    exampleLE a b || exampleLE b a := by
  simp only [exampleLE, Bool.or_eq_true, decide_eq_true_eq]
  exact le_total _ _

theorem limit_amenity_examples_eq_take (l : List AmenityExample) :
    limit_amenity_examples l =
      (l.mergeSort exampleLE).take AMENITY_EXAMPLES_PER_STATION := by
  unfold limit_amenity_examples
  by_cases h : (l.mergeSort exampleLE).length ≤ AMENITY_EXAMPLES_PER_STATION
  · simp only [h, if_true]
    exact (List.take_of_length_le h).symm
  · simp only [h, if_false]

/-- C6: for every input list, the example list produced by
limit_amenity_examples has at most 12 entries, is sorted by
(distance with sentinel, category, lower-cased name), and is the
12-entry prefix of a stable sort of the input: there is an arrangement
of the index-tagged input in which every earlier entry is
key-less-or-equal to every later one and key-equivalent entries keep
their original relative order, whose value part the output prefixes. -/
theorem limit_examples_sorted_stable_bounded (l : List AmenityExample) :
    (limit_amenity_examples l).length ≤ 12 ∧
    List.Pairwise (fun a b => exampleLE a b = true)
      (limit_amenity_examples l) ∧
    ∃ se : List (Nat × AmenityExample),
      se.Perm l.enum ∧
      List.Pairwise (fun a b => exampleLE a.2 b.2 = true ∧
        (exampleLE b.2 a.2 = true → a.1 < b.1)) se ∧
      limit_amenity_examples l =
        (se.map (·.2)).take AMENITY_EXAMPLES_PER_STATION := by
  have hTake := limit_amenity_examples_eq_take l
  refine ⟨?_, ?_, ?_⟩
  · rw [hTake]
    exact List.length_take_le _ _
  · rw [hTake]
    exact (List.sorted_mergeSort exampleLE_trans exampleLE_total l).sublist
      (List.take_sublist _ _)
  · refine ⟨(l.enum).mergeSort (List.enumLE exampleLE),
      List.mergeSort_perm _ _, ?_, ?_⟩
    · have hnd : List.Pairwise (fun a b : Nat × AmenityExample => a.1 ≠ b.1)
          ((l.enum).mergeSort (List.enumLE exampleLE)) := by
        have hperm : List.Perm
            (((l.enum).mergeSort (List.enumLE exampleLE)).map Prod.fst)
            (l.enum.map Prod.fst) :=
          (List.mergeSort_perm _ _).map _
        have h1 : (((l.enum).mergeSort (List.enumLE exampleLE)).map
            Prod.fst).Nodup := by
          rw [hperm.nodup_iff, List.enum_map_fst]
          exact List.nodup_range _
        exact List.pairwise_map.mp h1
      have hs := List.sorted_mergeSort
        (List.enumLE_trans exampleLE_trans)
        (List.enumLE_total exampleLE_total) (l.enum)
      refine (hs.and hnd).imp ?_
      intro a b h
      obtain ⟨hle, hne⟩ := h
      unfold List.enumLE at hle
      by_cases hab : exampleLE a.2 b.2 = true
      · refine ⟨hab, fun hba => ?_⟩
        rw [if_pos hab, if_pos hba] at hle
        exact lt_of_le_of_ne (of_decide_eq_true hle) hne
      · rw [if_neg hab] at hle
        simp at hle
    · rw [hTake, List.mergeSort_enum]

/-- C10 counterexample: in the ranked output, an example without a
numeric distance does not in general sort after every example with a
known distance: with a known distance equal to the sentinel 10,000,000
and a later tie-breaking category, the distance-less example sorts
first. -/
theorem missing_distance_sorts_first_cx :
    limit_amenity_examples
        [⟨"a", "", "", none, none⟩, ⟨"z", "", "", some 10000000, none⟩] =
      [⟨"a", "", "", none, none⟩, ⟨"z", "", "", some 10000000, none⟩] ∧
    (⟨"a", "", "", none, none⟩ : AmenityExample).distance_m = none ∧
    (⟨"z", "", "", some 10000000, none⟩ : AmenityExample).distance_m =
      some 10000000 := by
  refine ⟨?_, rfl, rfl⟩
  rw [limit_amenity_examples_eq_take, List.mergeSort_of_sorted]
  · rfl
  · refine List.pairwise_cons.mpr ⟨?_, List.pairwise_singleton _ _⟩
    intro e he
    rw [List.mem_singleton] at he
    subst he
    simp only [exampleLE, exampleSortKey, decide_eq_true_eq, Prod.Lex.le_iff]
    refine Or.inr ⟨trivial, Or.inl ?_⟩
    exact String.lt_iff_toList_lt.mpr (by decide)

/-- C10 (amended): an example whose distance_m is absent or not numeric
is keyed with the sentinel distance 10,000,000, therefore it sorts after
every example whose known distance is strictly below the sentinel, and
it still counts toward the 12-entry limit (the output length is the
minimum of the input length and 12). -/
theorem missing_distance_sentinel_ranking (l : List AmenityExample) :
    (∀ e : AmenityExample, e.distance_m = none →
      exampleSortKey e = (10000000, e.category, e.name.toLower)) ∧
    List.Pairwise (fun a b => ¬(a.distance_m = none ∧
        ∃ d, b.distance_m = some d ∧ d < 10000000))
      (limit_amenity_examples l) ∧
    (limit_amenity_examples l).length = min l.length 12 := by
  refine ⟨fun e he => by simp [exampleSortKey, he], ?_, ?_⟩
  · have hs : List.Pairwise (fun a b => exampleLE a b = true)
        (limit_amenity_examples l) := by
      rw [limit_amenity_examples_eq_take]
      exact (List.sorted_mergeSort exampleLE_trans exampleLE_total l).sublist
        (List.take_sublist _ _)
    refine hs.imp ?_
    intro a b hle hcontra
    obtain ⟨ha, d, hb, hd⟩ := hcontra
    simp only [exampleLE, decide_eq_true_eq, Prod.Lex.le_iff] at hle
    rcases hle with h | h
    · simp [exampleSortKey, ha, hb] at h
      omega
    · have := h.1
      simp [exampleSortKey, ha, hb] at this
      omega
  · rw [limit_amenity_examples_eq_take, List.length_take,
      List.length_mergeSort]
    unfold AMENITY_EXAMPLES_PER_STATION
    omega

/-- Witness for the amended C10 statement at a concrete distance-less
example: its sort key carries the sentinel distance. -/
theorem missing_distance_sentinel_ranking_witness :
    exampleSortKey ⟨"cafe", "", "", none, none⟩ =
      (10000000, "cafe", String.toLower "") :=
  (missing_distance_sentinel_ranking []).1 ⟨"cafe", "", "", none, none⟩ rfl

/-! ### C5: the retry policy -/

/-- C5: an HTTP 404 (an error status outside the retryable set) received
on every attempt does not propagate immediately: request_with_retries
sleeps and retries it just like a retryable status, making all 4
attempts with the backoff sleeps 1.2s, 2.16s, 3.888s before the failure
propagates. The raise of `response.raise_for_status()` happens inside
the `try` block and is a requests.RequestException, so the blanket
`except` clause of the same loop iteration catches it and retries;
the non-final-attempt check of the retryable-status set is thereby
behaviorally dead code. -/
theorem non_retryable_status_is_retried :
    (request_with_retries (fun _ => .status 404) 4).attempts = 4 ∧
    (request_with_retries (fun _ => .status 404) 4).sleeps =
      [1.2, 2.16, 3.888] ∧
    (request_with_retries (fun _ => .status 404) 4).outcome = .error () := by
  refine ⟨rfl, ?_, rfl⟩
  have h : (request_with_retries (fun _ => .status 404) 4).sleeps =
      [12 / 10, 12 / 10 * 18 / 10, 12 / 10 * 18 / 10 * 18 / 10] := rfl
  rw [h]
  norm_num

/-! ### C3: the cache reuse law -/

/-- C3 counterexample: at the exact staleness boundary, with
refresh_days = 1 and now - checked_at equal to exactly one day, the code
reuses the entry (checked_at >= now - refresh_days), although
now - checked_at is not strictly less than the refresh window, as the
claim requires. -/
theorem cache_reuse_boundary_cx :
    cacheDecision (some ⟨some 0, 100, [], []⟩) false 100 86400 1 = true ∧
    ¬((86400 : Int) - 0 < 1 * SECONDS_PER_DAY) := by
  exact ⟨rfl, by decide⟩

/-- C3 (amended): at a fixed now, a cache entry is reused if and only if
it exists at the station's rounded key, force-refresh is false, its
radius_m equals the requested radius, and now minus its checked_at
(the epoch when unparseable) is at most refresh_days (the boundary
inclusive); in every other case the station is a miss. -/
theorem cache_reuse_iff (entry? : Option CacheEntryM) (force_refresh : Bool)
    (radius_m now refresh_days : Int) :
    cacheDecision entry? force_refresh radius_m now refresh_days = true ↔
      ∃ entry, entry? = some entry ∧ force_refresh = false ∧
        entry.radius_m = radius_m ∧
        now - entry.checked_at.getD 0 ≤ refresh_days * SECONDS_PER_DAY := by
  cases entry? with
  | none => simp [cacheDecision]
  | some entry =>
    cases force_refresh with
    | true => simp [cacheDecision]
    | false =>
      unfold cacheDecision
      simp only [Bool.false_eq_true, if_false, Bool.and_eq_true, beq_iff_eq,
        decide_eq_true_eq]
      constructor
      · rintro ⟨h1, h2⟩
        exact ⟨entry, by simp, by simp, h1, by omega⟩
      · rintro ⟨e, he, -, h1, h2⟩
        injection he with he2
        subst he2
        exact ⟨h1, by omega⟩

/-! ### C4 and C7: the per-station orchestration of the remote backend -/

/-- C4 counterexample: after a failed live lookup the cache does hold a
new entry at the station's rounded coordinate key (the zero-count error
result is cached), contradicting that a result is written to the cache
only when the lookup succeeds. -/
theorem failed_lookup_writes_cache_cx :
    dictGet?
        (overpassStationStep 100 500 30 false 1000000 ⟨[], 0, 0, 0, 0, 0⟩
            ⟨5252 / 100, 13405 / 1000⟩ .failure).1.entries
        (coordKey (5252 / 100) (13405 / 1000)) =
      some ⟨some 1000000, 100, zeroCountsDict, []⟩ ∧
    (overpassStationStep 100 500 30 false 1000000 ⟨[], 0, 0, 0, 0, 0⟩
        ⟨5252 / 100, 13405 / 1000⟩ .failure).2.source = "error" := by
  have hstep : overpassStationStep 100 500 30 false 1000000
      ⟨[], 0, 0, 0, 0, 0⟩ ⟨5252 / 100, 13405 / 1000⟩ .failure =
      (⟨dictSet [] (coordKey (5252 / 100) (13405 / 1000))
          ⟨some 1000000, 100, zeroCountsDict, []⟩, 1, 0, 1, 0, 1⟩,
        materializeRow zeroCountsDict "error" []) := rfl
  rw [hstep]
  refine ⟨?_, rfl⟩
  rw [dictGet?_dictSet]
  exact if_pos rfl

/-- C4 (amended): when the cache entry is unusable and budget remains, a
station whose live lookup raises records zero counts, no examples and
source error, increments lookup_errors by exactly 1, consumes exactly
one query of the budget — and the zero-count error result is also
written into the cache at the station's rounded coordinate key (the
code caches the result of failed lookups as well as successful ones). -/
theorem lookup_failure_records_error_and_caches
    (radius_m : Int) (query_budget : Nat) (refresh_days : Int)
    (force_refresh : Bool) (now : Int) (st : OverpassState)
    (station : StationQ)
    (hcache : cacheDecision
        (dictGet? st.entries (coordKey station.lat station.lon))
        force_refresh radius_m now refresh_days = false)
    (hbudget : st.queries_used < query_budget) :
    overpassStationStep radius_m query_budget refresh_days force_refresh now
        st station .failure =
      ({ st with queries_used := st.queries_used + 1
                 cache_misses := st.cache_misses + 1
                 lookup_errors := st.lookup_errors + 1
                 entries := dictSet st.entries
                   (coordKey station.lat station.lon)
                   ⟨some now, radius_m, zeroCountsDict, []⟩ },
        materializeRow zeroCountsDict "error" []) := by
  simp only [overpassStationStep, hcache, Bool.false_eq_true, if_false]
  rw [if_neg (Nat.not_le.mpr hbudget)]

/-- Witness for the amended C4 statement: a concrete failed lookup on an
empty cache with a fresh budget, evaluated to the cached error entry. -/
theorem lookup_failure_records_error_and_caches_witness :
    overpassStationStep 100 500 30 false 0 ⟨[], 0, 0, 0, 0, 0⟩ ⟨0, 0⟩
        .failure =
      (⟨[(coordKey 0 0, ⟨some 0, 100, zeroCountsDict, []⟩)], 1, 0, 1, 0, 1⟩,
        materializeRow zeroCountsDict "error" []) :=
  lookup_failure_records_error_and_caches 100 500 30 false 0
    ⟨[], 0, 0, 0, 0, 0⟩ ⟨0, 0⟩ rfl (by decide)

/-- C7: when the cache entry is unusable and the query budget is
exhausted (in particular with a budget of 0), the station is deferred
with all counts zero and source deferred, the deferred statistic is
incremented while lookup_errors stays unchanged, the cache is left
untouched, and no network call is made: the result is the same for
every lookup outcome the network oracle could have produced. -/
theorem budget_exhausted_defers_without_network
    (radius_m : Int) (query_budget : Nat) (refresh_days : Int)
    (force_refresh : Bool) (now : Int) (st : OverpassState)
    (station : StationQ) (outcome : LookupOutcome)
    (hcache : cacheDecision
        (dictGet? st.entries (coordKey station.lat station.lon))
        force_refresh radius_m now refresh_days = false)
    (hbudget : query_budget ≤ st.queries_used) :
    overpassStationStep radius_m query_budget refresh_days force_refresh now
        st station outcome =
      ({ st with cache_misses := st.cache_misses + 1
                 deferred := st.deferred + 1 },
        materializeRow zeroCountsDict "deferred" []) := by
  simp only [overpassStationStep, hcache, Bool.false_eq_true, if_false]
  rw [if_pos hbudget]

/-- Witness for C7: a concrete station on an empty cache with a budget
of 0, evaluated for a would-be-successful outcome (which is ignored). -/
theorem budget_exhausted_defers_without_network_witness :
    overpassStationStep 100 0 30 false 0 ⟨[], 0, 0, 0, 0, 0⟩ ⟨0, 0⟩
        (.success [("amenity_cafe", 5)] []) =
      (⟨[], 0, 0, 1, 1, 0⟩, materializeRow zeroCountsDict "deferred" []) :=
  budget_exhausted_defers_without_network 100 0 30 false 0
    ⟨[], 0, 0, 0, 0, 0⟩ ⟨0, 0⟩ (.success [("amenity_cafe", 5)] []) rfl
    (Nat.zero_le 0)

/-! ### C9: complete count columns and consistent totals -/

theorem materializeRow_counts_keys (counts : List (String × Int))
    (source : String) (examples : List AmenityExample) :
    (materializeRow counts source examples).counts.map Prod.fst =
      amenity_columns := by
  simp [materializeRow, rowCols, List.map_map, Function.comp_def]

theorem materializeRow_total_eq_sum (counts : List (String × Int))
    (source : String) (examples : List AmenityExample) :
    (materializeRow counts source examples).total =
      ((materializeRow counts source examples).counts.map Prod.snd).sum := by
  simp [materializeRow, rowCols, rowTotal, List.map_map, Function.comp_def]

theorem overpassStationStep_row_shape (radius_m : Int) (query_budget : Nat)
    (refresh_days : Int) (force_refresh : Bool) (now : Int)
    (st : OverpassState) (station : StationQ) (outcome : LookupOutcome) :
    ∃ counts source examples,
      (overpassStationStep radius_m query_budget refresh_days force_refresh
          now st station outcome).2 =
        materializeRow counts source examples := by
  by_cases h1 : cacheDecision
      (dictGet? st.entries (coordKey station.lat station.lon))
      force_refresh radius_m now refresh_days = true
  · cases h2 : dictGet? st.entries (coordKey station.lat station.lon) with
    | none =>
      rw [h2] at h1
      refine ⟨zeroCountsDict, "", [], ?_⟩
      simp only [overpassStationStep, h1, h2, if_true]
    | some e =>
      rw [h2] at h1
      refine ⟨e.counts, "cache", e.examples, ?_⟩
      simp only [overpassStationStep, h1, h2, if_true]
  · have h1f : cacheDecision
        (dictGet? st.entries (coordKey station.lat station.lon))
        force_refresh radius_m now refresh_days = false :=
      Bool.eq_false_iff.mpr h1
    by_cases h3 : query_budget ≤ st.queries_used
    · refine ⟨zeroCountsDict, "deferred", [], ?_⟩
      simp only [overpassStationStep, h1f, Bool.false_eq_true, if_false]
      rw [if_pos h3]
    · cases outcome with
      | success c ex =>
        refine ⟨c, "live", ex, ?_⟩
        simp only [overpassStationStep, h1f, Bool.false_eq_true, if_false]
        rw [if_neg h3]
      | failure =>
        refine ⟨zeroCountsDict, "error", [], ?_⟩
        simp only [overpassStationStep, h1f, Bool.false_eq_true, if_false]
        rw [if_neg h3]

/-- C9: for every station row produced by either backend — any branch of
the Overpass per-station step, and any per-station answer of the local
extract backend — the counts mapping has exactly one entry per
configured category, in order, zero-filled when absent from the source
data, and the reported total equals the sum of these per-category
counts. -/
theorem row_counts_complete_and_total_consistent :
    (∀ (radius_m : Int) (query_budget : Nat) (refresh_days : Int)
        (force_refresh : Bool) (now : Int) (st : OverpassState)
        (station : StationQ) (outcome : LookupOutcome),
      ((overpassStationStep radius_m query_budget refresh_days force_refresh
            now st station outcome).2.counts.map Prod.fst = amenity_columns ∧
        (overpassStationStep radius_m query_budget refresh_days force_refresh
            now st station outcome).2.total =
          ((overpassStationStep radius_m query_budget refresh_days
              force_refresh now st station outcome).2.counts.map
            Prod.snd).sum)) ∧
    (∀ (radius_m : Int) (s : GeoStation) (points : List AmenityPoint),
      ((localStationRow radius_m s points).counts.map Prod.fst =
          amenity_columns ∧
        (localStationRow radius_m s points).total =
          ((localStationRow radius_m s points).counts.map Prod.snd).sum)) := by
  constructor
  · intro radius_m query_budget refresh_days force_refresh now st station
      outcome
    obtain ⟨c, src, ex, h⟩ := overpassStationStep_row_shape radius_m
      query_budget refresh_days force_refresh now st station outcome
    rw [h]
    exact ⟨materializeRow_counts_keys c src ex,
      materializeRow_total_eq_sum c src ex⟩
  · intro radius_m s points
    unfold localStationRow
    exact ⟨materializeRow_counts_keys _ _ _, materializeRow_total_eq_sum _ _ _⟩

/-! ### C8: the failure policy of the local extract backend -/

/-- C8 counterexample: with an empty station list the local backend
returns an (empty) enriched result without aborting, even though the
extract file is absent and automatic fetch is not permitted — the
early-return for zero rows happens before the file check. -/
theorem empty_station_list_skips_file_check_cx :
    enrich_with_amenities_osm_pbf [] 100 false false [] =
      Except.ok [] := rfl

/-- C8 (amended): for every nonempty input station list, when the local
extract backend is selected, the extract file is absent (or empty) and
automatic fetch is not permitted, the run aborts with the fatal
configuration error and produces no enriched rows (an empty station
list, however, returns an empty result without touching the file, see
the counterexample). -/
theorem missing_pbf_without_download_aborts
    (stations : List GeoStation) (radius_m : Int)
    (extract : List RawGeometry) (hne : stations ≠ []) :
    enrich_with_amenities_osm_pbf stations radius_m false false extract =
      Except.error
        "Local OSM PBF backend selected but file is missing." := by
  unfold enrich_with_amenities_osm_pbf
  rw [if_neg (by simpa using hne)]
  rfl

/-- Witness for the amended C8 statement: one concrete station, missing
file, no download permission. -/
theorem missing_pbf_without_download_aborts_witness :
    enrich_with_amenities_osm_pbf [⟨50, 10⟩] 100 false false [] =
      Except.error
        "Local OSM PBF backend selected but file is missing." :=
  missing_pbf_without_download_aborts [⟨50, 10⟩] 100 [] (by simp)

/-! ### C2: completeness and exactness of the two-level grid -/

theorem atan2_of_pos (y x : ℝ) (hx : 0 < x) :
    atan2 y x = Real.arctan (y / x) := by
  unfold atan2
  rw [if_pos hx]

open Real in
theorem haversine_meridian (lat1 lat2 lon : ℝ) (h0 : lat1 ≤ lat2)
    (h1 : lat2 - lat1 < 180) :
    haversine_distance_m lat1 lon lat2 lon =
      EARTH_RADIUS_M * ((lat2 - lat1) * π / 180) := by
  have hπ := Real.pi_pos
  have hd : 0 ≤ lat2 - lat1 := by linarith
  simp only [haversine_distance_m, radians, EARTH_RADIUS_M]
  set θ : ℝ := (lat2 - lat1) * π / 180 / 2 with hθ
  have hmul : (lat2 - lat1) * π < 180 * π := mul_lt_mul_of_pos_right h1 hπ
  have hθ0 : 0 ≤ θ := by rw [hθ]; positivity
  have hθlt : θ < π / 2 := by rw [hθ]; linarith
  have hθle : θ ≤ π := by linarith
  have hgt : -(π / 2) < θ := by linarith
  have hsin : 0 ≤ Real.sin θ := Real.sin_nonneg_of_nonneg_of_le_pi hθ0 hθle
  have hcos : 0 < Real.cos θ := Real.cos_pos_of_mem_Ioo ⟨hgt, hθlt⟩
  rw [sub_self lon, zero_mul, zero_div, zero_div, Real.sin_zero,
    zero_pow (by norm_num : (2 : ℕ) ≠ 0), mul_zero, add_zero,
    Real.sqrt_sq hsin, ← Real.cos_sq', max_eq_right (sq_nonneg _),
    Real.sqrt_sq hcos.le, atan2_of_pos _ _ hcos,
    ← Real.tan_eq_sin_div_cos, Real.arctan_tan hgt hθlt, hθ]
  ring

theorem floor_add_ceil_le (x c : ℝ) : ⌊x + c⌋ ≤ ⌊x⌋ + ⌈c⌉ := by
  have h : x + c ≤ x + (⌈c⌉ : ℝ) := by linarith [Int.le_ceil c]
  simpa [Int.floor_add_int] using Int.floor_mono h

theorem abs_floor_div_sub_le (x y d step : ℝ) (hstep : 0 < step)
    (h : |x - y| ≤ d) :
    |⌊x / step⌋ - ⌊y / step⌋| ≤ ⌈d / step⌉ := by
  rw [abs_le] at h
  rw [abs_le]
  constructor
  · have hy : y / step ≤ x / step + d / step := by
      rw [← add_div]
      exact (div_le_div_iff_of_pos_right hstep).mpr (by linarith)
    have h2 := le_trans (Int.floor_mono hy)
      (floor_add_ceil_le (x / step) (d / step))
    omega
  · have hx : x / step ≤ y / step + d / step := by
      rw [← add_div]
      exact (div_le_div_iff_of_pos_right hstep).mpr (by linarith)
    have h2 := le_trans (Int.floor_mono hx)
      (floor_add_ceil_le (y / step) (d / step))
    omega

/-- C2 counterexample: a cafe node at latitude 50.0002 on the same
meridian as the station at latitude 49.101 is within the exact haversine
radius of 100,000 m, but the coarse acceptance filter rejects its coarse
cell (the code's 111,320 m-per-degree bounding box is slightly narrower
than a haversine degree of about 111,194.93 m on the 6,371,000 m sphere,
and a coarse cell boundary at latitude 50.0 falls inside the gap), so
the geometry never enters the candidate set: the coarse-plus-fine gather
has a false negative. -/
theorem coarse_grid_false_negative_cx :
    classify_tags [("amenity", "cafe")] ≠ [] ∧
    haversine_distance_m 49.101 10 50.0002 10 ≤ ((100000 : Int) : ℝ) ∧
    (⟨50.0002, 10, [("amenity", "cafe")]⟩ : RawGeometry) ∉
      candidateSet [⟨49.101, 10⟩] 100000 ⟨49.101, 10⟩ := by
  refine ⟨by decide, ?_, ?_⟩
  · rw [haversine_meridian 49.101 50.0002 10 (by norm_num) (by norm_num)]
    simp only [EARTH_RADIUS_M]
    push_cast
    nlinarith [Real.pi_lt_d4, Real.pi_pos]
  · rintro ⟨⟨-, hcell⟩, -⟩
    simp only [build_coarse_station_cells, Set.mem_setOf_eq] at hcell
    obtain ⟨s, hs, hb1, hb2, hb3, hb4⟩ := hcell
    rw [List.mem_singleton] at hs
    subst hs
    have hup : ((49.101 : ℝ) + (radius_deltas_deg 100000 (49.101 : ℝ)).1) /
        COARSE_LAT_STEP < ((2500 : ℤ) : ℝ) := by
      simp only [radius_deltas_deg, COARSE_LAT_STEP]
      push_cast
      norm_num
    have h2 := Int.floor_lt.mpr hup
    have h3 : (2500 : ℤ) ≤
        (cell_key 50.0002 10 COARSE_LAT_STEP COARSE_LON_STEP).1 := by
      simp only [cell_key, COARSE_LAT_STEP]
      refine Int.le_floor.mpr ?_
      push_cast
      norm_num
    simp only [cell_key] at h3 hb2
    omega

/-- C2 (amended): the two-level grid of the local backend is complete
for the degree bounding box the code itself derives from the radius:
every geometry matching the rule table whose latitude and longitude each
differ from the station's by at most the radius_deltas_deg half-widths
lands in the candidate set (coarse acceptance plus fine neighborhood
gather). It is not complete for the exact haversine disc — see the
counterexample — since the 111,320 m-per-degree box is slightly
narrower than a haversine degree. Moreover no false positive survives:
every geometry that reaches a station's counting loop is within the
exact haversine radius. -/
theorem local_grid_box_complete_and_filter_exact :
    (∀ (stations : List GeoStation) (radius_m : Int) (s : GeoStation)
        (g : RawGeometry), s ∈ stations → 0 ≤ radius_m →
      classify_tags g.tags ≠ [] →
      |g.lat - s.lat| ≤ (radius_deltas_deg radius_m s.lat).1 →
      |g.lon - s.lon| ≤ (radius_deltas_deg radius_m s.lat).2 →
      g ∈ candidateSet stations radius_m s) ∧
    (∀ (stations : List GeoStation) (radius_m : Int) (s : GeoStation)
        (g : RawGeometry), g ∈ countedSet stations radius_m s →
      haversine_distance_m s.lat s.lon g.lat g.lon ≤ (radius_m : ℝ)) := by
  constructor
  · intro stations radius_m s g hs hr hcl hlat hlon
    have hlat2 := abs_le.mp hlat
    have hlon2 := abs_le.mp hlon
    have hclat : (0 : ℝ) < COARSE_LAT_STEP := by
      simp only [COARSE_LAT_STEP]; norm_num
    have hclon : (0 : ℝ) < COARSE_LON_STEP := by
      simp only [COARSE_LON_STEP]; norm_num
    have hfla : (0 : ℝ) < fine_lat_step radius_m :=
      lt_of_lt_of_le (by norm_num) (le_max_left _ _)
    have hflo : (0 : ℝ) < fine_lon_step radius_m :=
      lt_of_lt_of_le (by norm_num) (le_max_left _ _)
    refine ⟨⟨hcl, ?_⟩, ?_, ?_⟩
    · simp only [build_coarse_station_cells, cell_key, Set.mem_setOf_eq]
      refine ⟨s, hs, ?_, ?_, ?_, ?_⟩
      · exact Int.floor_mono ((div_le_div_iff_of_pos_right hclat).mpr (by linarith))
      · exact Int.floor_mono ((div_le_div_iff_of_pos_right hclat).mpr (by linarith))
      · exact Int.floor_mono ((div_le_div_iff_of_pos_right hclon).mpr (by linarith))
      · exact Int.floor_mono ((div_le_div_iff_of_pos_right hclon).mpr (by linarith))
    · simp only [fineNeighborhood, cell_key]
      have h := abs_floor_div_sub_le g.lat s.lat
        (radius_deltas_deg radius_m s.lat).1 (fine_lat_step radius_m)
        hfla hlat
      omega
    · simp only [fineNeighborhood, cell_key]
      have h := abs_floor_div_sub_le g.lon s.lon
        (radius_deltas_deg radius_m s.lat).2 (fine_lon_step radius_m)
        hflo hlon
      omega
  · intro stations radius_m s g hg
    exact hg.2

/-- Witness for the amended C2 statement: a matching geometry exactly at
a concrete station's coordinate lies in the station's candidate set. -/
theorem local_grid_box_complete_witness :
    (⟨50, 10, [("amenity", "cafe")]⟩ : RawGeometry) ∈
      candidateSet [⟨50, 10⟩] 100 ⟨50, 10⟩ := by
  refine local_grid_box_complete_and_filter_exact.1 [⟨50, 10⟩] 100 ⟨50, 10⟩
    ⟨50, 10, [("amenity", "cafe")]⟩ (List.mem_singleton.mpr rfl)
    (by norm_num) (by decide) ?_ ?_
  · simp only [radius_deltas_deg]
    rw [sub_self, abs_zero]
    positivity
  · simp only [radius_deltas_deg]
    rw [sub_self, abs_zero]
    refine div_nonneg (by norm_num) (le_of_lt (mul_pos (by norm_num) ?_))
    exact lt_of_lt_of_le (by norm_num) (le_max_left _ _)

end Woladen
